import Mathlib

/-!
# pgconnector: the reconnect loop of `PGManager`

A shallow embedding of `src/pgconnector/pgconnector.go`.

* The manager (`PGManager`) is a record; a method with a pointer receiver becomes a
  function from the state before the call to the returned value and the state after
  it.  `PGManager.Config` is a Go pointer; the embedding covers managers whose
  `Config` is not nil, which is what `NewPGManager` constructs.
* Everything outside the package is collected in `Env`: what `pgx.Connect` and
  `Conn.Ping` answer at each call, how far the clock moves during an attempt and
  during a `time.Sleep`, and how `time.Duration` renders itself.
* Time is counted in nanoseconds as an `Int`, as `time.Duration` does.  The clock is
  read by `time.Now` and `time.Since` only; it moves between the reading of the start
  time and the first test of the loop, during the attempts and during the sleeps.  `time.Duration` is a 64-bit integer and `time.Since` saturates;
  `saturatedSince_lt_iff` shows that the test of the loop is not affected.
* Every function also returns the list of the observable events it caused, oldest
  first (calls into pgx, log lines, sleeps).
* The `for` loop of `PGReconnectWithTimeout` may run for ever in an environment whose
  clock does not advance, so the loop takes a bound on the number of iterations and
  answers `none` when the bound is used up.
-/

namespace pgconnector

/-! ## Data model -/

/-- Connection parameters, `PGClientConfig` in the source: seven string fields. -/
structure PGClientConfig where
  Hostname : String
  Port : String
  Database : String
  Username : String
  Password : String
  Sslmode : String
  ApplicationName : String
  deriving DecidableEq, Repr

/-- A live database session, `*pgx.Conn` in the source: a handle with no visible
structure, here a number. -/
abbrev Conn := Nat

/-- The connection manager, `PGManager` in the source.  `conn = none` is the nil
pointer. -/
structure PGManager where
  conn : Option Conn
  Config : PGClientConfig
  deriving DecidableEq, Repr

/-- An error value handed out by the pgx driver, by `pgx.Connect` or by `Conn.Ping`. -/
structure DriverError where
  msg : String
  deriving DecidableEq, Repr

/-- Go `error` values that occur in the package: the ones that come from the driver
and the ones built by `fmt.Errorf`. -/
inductive Error where
  | driver (e : DriverError)
  | errorf (msg : String)
  deriving DecidableEq, Repr

/-- The method `Error()` of an error value. -/
def Error.text : Error → String
  | .driver e => e.msg
  | .errorf msg => msg

/-- One second in nanoseconds, `time.Second`. -/
def Second : Int := 1000000000

/-- The world outside the package.

* `connect n s` is what the `n`-th call of `pgx.Connect` (counted from 0) answers for
  the descriptor `s`: a handle or an error;
* `ping n c` is what `c.Ping` answers in the attempt that follows the `n`-th connect;
* `cost n` is how far the clock moves during the `n`-th attempt (connect, ping and
  logging together);
* `lag k` is how much longer than asked the `k`-th `time.Sleep` takes;
* `startLag` is how far the clock moves between `startTime := time.Now()` and the
  first evaluation of `time.Since(startTime)` in `PGReconnectWithTimeout`;
* `durationString d` is `time.Duration(d).String()`. -/
structure Env where
  connect : Nat → String → Except DriverError Conn
  ping : Nat → Conn → Option DriverError
  cost : Nat → Int
  lag : Nat → Int
  startLag : Int
  durationString : Int → String

/-- The state a call runs in: the manager, the clock reading, and how many
`pgx.Connect` and `time.Sleep` calls have been made so far. -/
structure World where
  pm : PGManager
  now : Int
  calls : Nat
  sleeps : Nat
  deriving DecidableEq, Repr

/-- Observable events. -/
inductive Event where
  /-- A call `pgx.Connect(ctx, connStr)`. -/
  | connect (connStr : String) (res : Except DriverError Conn)
  /-- A call `conn.Ping(ctx)`. -/
  | ping (c : Conn) (err : Option DriverError)
  /-- A call of `pgConnectWithRetry` that returned `err`. -/
  | attempt (err : Option Error)
  /-- A line given to the logger. -/
  | log (line : String)
  /-- A call `time.Sleep(d)`. -/
  | sleep (d : Int)

/-! ## `fmt.Sprintf`, for string operands

The fragment of Go's `fmt` that the package uses.  All operands are strings (a
`string`, the `Error()` of an error under `%v`, the `String()` of a duration under
`%s`).  The verbs `%s` and `%v` print the operand as it is.  Any other verb applied
to a string is reported in the output as `%!verb(string=operand)`; this is the case
of `%d`.  (`%q`, `%x`, `%X`, flags and widths are left out, the package has none.) -/

/-- One operand under one verb. -/
def fmtVerb (verb : Char) (arg : List Char) : List Char :=
  if verb = 's' ∨ verb = 'v' then arg
  else '%' :: '!' :: verb :: ("(string=".toList ++ arg ++ [')'])

/-- What `fmt` prints for operands that no verb consumed. -/
def fmtExtra : List (List Char) → List Char
  | [] => []
  | [a] => "string=".toList ++ a
  | a :: b :: rest => "string=".toList ++ a ++ ", ".toList ++ fmtExtra (b :: rest)

/-- The format string is walked left to right. -/
def sprintfChars : List Char → List (List Char) → List Char
  | [], [] => []
  | [], a :: args => "%!(EXTRA ".toList ++ fmtExtra (a :: args) ++ [')']
  | [c], args =>
    if c = '%' then "%!(NOVERB)".toList ++ sprintfChars [] args
    else c :: sprintfChars [] args
  | c :: v :: rest, args =>
    if c = '%' then
      if v = '%' then '%' :: sprintfChars rest args
      else
        match args with
        | [] => '%' :: '!' :: v :: ("(MISSING)".toList ++ sprintfChars rest [])
        | a :: args => fmtVerb v a ++ sprintfChars rest args
    else c :: sprintfChars (v :: rest) args

/-- Go `fmt.Sprintf` on string operands. -/
def Sprintf (format : String) (args : List String) : String :=
  String.mk (sprintfChars format.toList (args.map String.toList))

/-- Go `fmt.Errorf` on string operands (no `%w` in the package). -/
def Errorf (format : String) (args : List String) : Error :=
  .errorf (Sprintf format args)

/-! ## The methods of `PGManager` -/

/-- The descriptor built in the first line of `PGConnect`.  `Port` is a string and is
printed under `%d`. -/
def connStr (cfg : PGClientConfig) : String :=
  Sprintf "hostname=%s port=%d dbname=%s user=%s password=%s sslmode=%s applicationame=%s"
    [cfg.Hostname, cfg.Port, cfg.Database, cfg.Username, cfg.Password, cfg.Sslmode,
      cfg.ApplicationName]

/-- What a call of `PGConnect` gives back: the Go pair `(*pgx.Conn, error)`, which is
either a handle with a nil error or a nil handle with an error, the world after the
call and the events of the call. -/
structure ConnectResult where
  ret : Except Error Conn
  world : World
  events : List Event

/-- `PGManager.PGConnect`: open a connection; store and return it when that worked. -/
def PGConnect (env : Env) (w : World) : ConnectResult :=
  let s := connStr w.pm.Config
  let res := env.connect w.calls s
  let w1 : World := { w with calls := w.calls + 1 }
  match res with
  | .error e => { ret := .error (.driver e), world := w1, events := [.connect s res] }
  | .ok conn =>
    { ret := .ok conn,
      world := { w1 with pm := { w1.pm with conn := some conn } },
      events := [.connect s res] }

/-- What a call that returns an `error` gives back. -/
structure Result where
  err : Option Error
  world : World
  events : List Event

/-- `PGManager.pgConnectWithRetry`: one attempt, a connect followed by a ping.  The
clock moves by the cost of the attempt. -/
def pgConnectWithRetry (env : Env) (w : World) : Result :=
  let n := w.calls
  let r := PGConnect env w
  let w1 : World := { r.world with now := r.world.now + env.cost n }
  match r.ret with
  | .error err => { err := some err, world := w1, events := r.events ++ [.attempt (some err)] }
  | .ok conn =>
    match env.ping n conn with
    | some e =>
      { err := some (.driver e), world := w1,
        events := r.events ++ [.ping conn (some e), .attempt (some (.driver e))] }
    | none =>
      { err := none, world := { w1 with pm := { w1.pm with conn := some conn } },
        events := r.events ++ [.ping conn none, .attempt none] }

/-- `time.Sleep(d)`: the clock moves by `d` and by the lag of this sleep. -/
def Sleep (env : Env) (d : Int) (w : World) : World :=
  { w with now := w.now + d + env.lag w.sleeps, sleeps := w.sleeps + 1 }

/-- The error returned when the time is used up. -/
def timeoutError (env : Env) (timeout : Int) : Error :=
  Errorf "failed to reconnect within %s" [env.durationString timeout]

/-- The `for` loop of `PGReconnectWithTimeout`, at most `fuel` evaluations of its
condition.  `time.Since(startTime)` is `w.now - startTime`. -/
def reconnectLoop (env : Env) (timeout startTime : Int) : Nat → World → Option Result
  | 0, _ => none
  | fuel + 1, w =>
    if w.now - startTime < timeout then
      let r := pgConnectWithRetry env w
      match r.err with
      | none =>
        some { err := none, world := r.world,
               events := .log "Attempting to reconnect...\n" :: r.events ++
                 [.log "Reconnected successfully.\n"] }
      | some err =>
        let line := Sprintf "Reconnection attempt failed: %v\n" [err.text]
        let w2 := Sleep env (2 * Second) r.world
        match reconnectLoop env timeout startTime fuel w2 with
        | none => none
        | some r2 =>
          some { r2 with
                 events := .log "Attempting to reconnect...\n" :: r.events ++
                   [.log line, .sleep (2 * Second)] ++ r2.events }
    else
      some { err := some (timeoutError env timeout), world := w, events := [] }

/-- `PGManager.PGReconnectWithTimeout`: the start time is read with `time.Now()`, the
clock moves by `startLag` until `time.Since(startTime)` is read for the first time, then
the loop runs. -/
def PGReconnectWithTimeout (env : Env) (timeout : Int) (fuel : Nat) (w : World) :
    Option Result :=
  let startTime := w.now
  reconnectLoop env timeout startTime fuel { w with now := w.now + env.startLag }

/-! ## Observations on a run -/

/-- Number of attempts in a run: calls of `pgConnectWithRetry`. -/
def attempts : List Event → Nat
  | [] => 0
  | .attempt _ :: es => attempts es + 1
  | _ :: es => attempts es

/-- Number of attempts that returned an error. -/
def failedAttempts : List Event → Nat
  | [] => 0
  | .attempt (some _) :: es => failedAttempts es + 1
  | _ :: es => failedAttempts es

/-- Number of calls of `time.Sleep`. -/
def sleepCount : List Event → Nat
  | [] => 0
  | .sleep _ :: es => sleepCount es + 1
  | _ :: es => sleepCount es

/-- Sum of the durations asked of `time.Sleep`. -/
def sleptTotal : List Event → Int
  | [] => 0
  | .sleep d :: es => d + sleptTotal es
  | _ :: es => sleptTotal es

/-- The attempts and the sleeps of a run, in their order, everything else dropped. -/
def attemptsAndSleeps : List Event → List Event
  | [] => []
  | .attempt err :: es => .attempt err :: attemptsAndSleeps es
  | .sleep d :: es => .sleep d :: attemptsAndSleeps es
  | _ :: es => attemptsAndSleeps es

/-- The discipline of the retry loop on a list of attempts and sleeps: a failed
attempt is followed at once by one sleep of two seconds, after which the list goes
on; a successful attempt ends the list. -/
def SleepRule : List Event → Prop
  | [] => True
  | .attempt (some _) :: .sleep d :: rest => d = 2 * Second ∧ SleepRule rest
  | [.attempt none] => True
  | _ => False

/-- The handle of the last connect of a run that succeeded, `h0` when there is none. -/
def lastConnected (h0 : Option Conn) : List Event → Option Conn
  | [] => h0
  | .connect _ (.ok h) :: es => lastConnected (some h) es
  | _ :: es => lastConnected h0 es

/-- Whether the attempt that makes the `n`-th connect call succeeds under the config
`cfg`: the connect and the ping both do. -/
def attemptSucceeds (env : Env) (n : Nat) (cfg : PGClientConfig) : Bool :=
  match env.connect n (connStr cfg) with
  | .error _ => false
  | .ok h => (env.ping n h).isNone

/-- A clock that never goes backwards, with sleeps that last at least as long as
asked: attempts, the excess of sleeps and the time before the first test of the loop
are all non-negative. -/
def ClockOK (env : Env) : Prop :=
  (∀ n, 0 ≤ env.cost n) ∧ (∀ k, 0 ≤ env.lag k) ∧ 0 ≤ env.startLag

/-- The model clock of fixed cost: every attempt takes `c`, every sleep lasts exactly
as long as asked, and the clock moves at no other time. -/
def FixedClock (env : Env) (c : Int) : Prop :=
  (∀ n, env.cost n = c) ∧ (∀ k, env.lag k = 0) ∧ env.startLag = 0

/-- The events of an iteration whose attempt failed, followed by the rest of the run. -/
def failedIteration (r : Result) (err : Error) (rest : List Event) : List Event :=
  .log "Attempting to reconnect...\n" :: r.events ++
    [.log (Sprintf "Reconnection attempt failed: %v\n" [err.text]), .sleep (2 * Second)] ++ rest

/-- The events of an iteration whose attempt succeeded. -/
def successfulIteration (r : Result) : List Event :=
  .log "Attempting to reconnect...\n" :: r.events ++ [.log "Reconnected successfully.\n"]

/-- The largest `time.Duration`, `1<<63 - 1` nanoseconds. -/
def maxDuration : Int := 2 ^ 63 - 1

/-- The smallest `time.Duration`. -/
def minDuration : Int := -(2 ^ 63)

/-- What `time.Since` returns when the true time passed is `elapsed`: the subtraction
of `time.Time` values saturates at the ends of the range of `time.Duration`. -/
def saturatedSince (elapsed : Int) : Int :=
  min (max elapsed minDuration) maxDuration

/-! ## Sample environments -/

/-- A sample configuration. -/
def sampleConfig : PGClientConfig :=
  { Hostname := "db.local", Port := "5432", Database := "bench", Username := "joe",
    Password := "pw", Sslmode := "disable", ApplicationName := "simload" }

/-- A manager just constructed from `sampleConfig`, at clock reading zero. -/
def sampleWorld : World :=
  { pm := { conn := none, Config := sampleConfig }, now := 0, calls := 0, sleeps := 0 }

/-- A manager that already holds the handle `7`. -/
def connectedWorld : World :=
  { pm := { conn := some 7, Config := sampleConfig }, now := 0, calls := 0, sleeps := 0 }

/-- Rendering of a duration of a whole number of seconds below one minute, as
`time.Duration.String` prints it (`"0s"`, `"1s"`, `"5s"`). -/
def secondsString (d : Int) : String :=
  toString (d / Second) ++ "s"

/-- No server: every connect is refused.  Attempts take no time. -/
def envDown : Env :=
  { connect := fun _ _ => .error ⟨"connection refused"⟩
    ping := fun _ _ => none
    cost := fun _ => 0
    lag := fun _ => 0
    startLag := 0
    durationString := secondsString }

/-- A healthy server: connect `n` gives the handle `100 + n`, pings succeed.
Attempts take no time. -/
def envUp : Env :=
  { connect := fun n _ => .ok (100 + n)
    ping := fun _ _ => none
    cost := fun _ => 0
    lag := fun _ => 0
    startLag := 0
    durationString := secondsString }

/-- The healthy server again, with a clock that moves by 100 nanoseconds between the
reading of the start time and the first test of the loop. -/
def envUpLate : Env :=
  { envUp with startLag := 100 }

/-- A server that accepts connections and does not answer pings. -/
def envNoPing : Env :=
  { connect := fun n _ => .ok (100 + n)
    ping := fun _ _ => some ⟨"ping timeout"⟩
    cost := fun _ => 0
    lag := fun _ => 0
    startLag := 0
    durationString := secondsString }

/-- A server that comes back: the first connect is refused, the second is accepted and
its ping fails, from the third on everything works.  Attempts take one second. -/
def envFlaky : Env :=
  { connect := fun n _ => if n = 0 then .error ⟨"connection refused"⟩ else .ok (100 + n)
    ping := fun n _ => if n = 1 then some ⟨"ping timeout"⟩ else none
    cost := fun _ => Second
    lag := fun _ => 0
    startLag := 0
    durationString := secondsString }

/-! ## Lemmas on the observations -/

theorem attempts_append (a b : List Event) : attempts (a ++ b) = attempts a + attempts b := by
  induction a with
  | nil => simp [attempts]
  | cons e es ih => cases e <;> simp [attempts, ih]; omega

theorem failedAttempts_append (a b : List Event) :
    failedAttempts (a ++ b) = failedAttempts a + failedAttempts b := by
  induction a with
  | nil => simp [failedAttempts]
  | cons e es ih =>
    cases e with
    | attempt err => cases err <;> simp [failedAttempts, ih]; omega
    | _ => simp [failedAttempts, ih]

theorem sleepCount_append (a b : List Event) :
    sleepCount (a ++ b) = sleepCount a + sleepCount b := by
  induction a with
  | nil => simp [sleepCount]
  | cons e es ih => cases e <;> simp [sleepCount, ih]; omega

theorem sleptTotal_append (a b : List Event) :
    sleptTotal (a ++ b) = sleptTotal a + sleptTotal b := by
  induction a with
  | nil => simp [sleptTotal]
  | cons e es ih => cases e <;> simp [sleptTotal, ih]; omega

theorem attemptsAndSleeps_append (a b : List Event) :
    attemptsAndSleeps (a ++ b) = attemptsAndSleeps a ++ attemptsAndSleeps b := by
  induction a with
  | nil => simp [attemptsAndSleeps]
  | cons e es ih => cases e <;> simp [attemptsAndSleeps, ih]

theorem lastConnected_append (h0 : Option Conn) (a b : List Event) :
    lastConnected h0 (a ++ b) = lastConnected (lastConnected h0 a) b := by
  induction a generalizing h0 with
  | nil => simp [lastConnected]
  | cons e es ih =>
    cases e with
    | connect s res => cases res <;> simp [lastConnected, ih]
    | _ => simp [lastConnected, ih]

/-! ## Lemmas on the format strings -/

theorem connStr_eq (cfg : PGClientConfig) :
    connStr cfg =
      "hostname=" ++ cfg.Hostname ++ " port=%!d(string=" ++ cfg.Port ++ ") dbname=" ++
        cfg.Database ++ " user=" ++ cfg.Username ++ " password=" ++ cfg.Password ++
        " sslmode=" ++ cfg.Sslmode ++ " applicationame=" ++ cfg.ApplicationName := by
  apply String.ext
  simp [connStr, Sprintf, sprintfChars, fmtVerb]

theorem timeoutError_eq (env : Env) (timeout : Int) :
    timeoutError env timeout =
      .errorf ("failed to reconnect within " ++ env.durationString timeout) := by
  simp only [timeoutError, Errorf, Error.errorf.injEq]
  apply String.ext
  simp [Sprintf, sprintfChars, fmtVerb]

/-! ## Lemmas on one attempt -/

theorem PGConnect_error (env : Env) (w : World) (e : DriverError)
    (h : env.connect w.calls (connStr w.pm.Config) = .error e) :
    PGConnect env w =
      { ret := .error (.driver e), world := { w with calls := w.calls + 1 },
        events := [.connect (connStr w.pm.Config) (.error e)] } := by
  simp [PGConnect, h]

theorem PGConnect_ok (env : Env) (w : World) (c : Conn)
    (h : env.connect w.calls (connStr w.pm.Config) = .ok c) :
    PGConnect env w =
      { ret := .ok c,
        world := { w with calls := w.calls + 1, pm := { w.pm with conn := some c } },
        events := [.connect (connStr w.pm.Config) (.ok c)] } := by
  simp [PGConnect, h]

theorem attempt_connect_error (env : Env) (w : World) (e : DriverError)
    (h : env.connect w.calls (connStr w.pm.Config) = .error e) :
    pgConnectWithRetry env w =
      { err := some (.driver e),
        world := { w with calls := w.calls + 1, now := w.now + env.cost w.calls },
        events := [.connect (connStr w.pm.Config) (.error e), .attempt (some (.driver e))] } := by
  simp [pgConnectWithRetry, PGConnect_error env w e h]

theorem attempt_ping_error (env : Env) (w : World) (c : Conn) (e : DriverError)
    (h : env.connect w.calls (connStr w.pm.Config) = .ok c)
    (hp : env.ping w.calls c = some e) :
    pgConnectWithRetry env w =
      { err := some (.driver e),
        world := { w with calls := w.calls + 1, now := w.now + env.cost w.calls,
                          pm := { w.pm with conn := some c } },
        events := [.connect (connStr w.pm.Config) (.ok c), .ping c (some e),
          .attempt (some (.driver e))] } := by
  simp [pgConnectWithRetry, PGConnect_ok env w c h, hp]

theorem attempt_ok (env : Env) (w : World) (c : Conn)
    (h : env.connect w.calls (connStr w.pm.Config) = .ok c)
    (hp : env.ping w.calls c = none) :
    pgConnectWithRetry env w =
      { err := none,
        world := { w with calls := w.calls + 1, now := w.now + env.cost w.calls,
                          pm := { w.pm with conn := some c } },
        events := [.connect (connStr w.pm.Config) (.ok c), .ping c none, .attempt none] } := by
  simp [pgConnectWithRetry, PGConnect_ok env w c h, hp]

/-- The three ways an attempt can go. -/
theorem attempt_cases (env : Env) (w : World) :
    (∃ e, env.connect w.calls (connStr w.pm.Config) = .error e) ∨
      (∃ c e, env.connect w.calls (connStr w.pm.Config) = .ok c ∧
        env.ping w.calls c = some e) ∨
      (∃ c, env.connect w.calls (connStr w.pm.Config) = .ok c ∧ env.ping w.calls c = none) := by
  rcases hc : env.connect w.calls (connStr w.pm.Config) with e | c
  · exact Or.inl ⟨e, rfl⟩
  · rcases hp : env.ping w.calls c with _ | e
    · exact Or.inr (Or.inr ⟨c, rfl, hp⟩)
    · exact Or.inr (Or.inl ⟨c, e, rfl, hp⟩)

theorem attempt_world (env : Env) (w : World) :
    (pgConnectWithRetry env w).world.calls = w.calls + 1 ∧
      (pgConnectWithRetry env w).world.sleeps = w.sleeps ∧
      (pgConnectWithRetry env w).world.now = w.now + env.cost w.calls ∧
      (pgConnectWithRetry env w).world.pm.Config = w.pm.Config := by
  rcases attempt_cases env w with ⟨e, h⟩ | ⟨c, e, h, hp⟩ | ⟨c, h, hp⟩
  · simp [attempt_connect_error env w e h]
  · simp [attempt_ping_error env w c e h hp]
  · simp [attempt_ok env w c h hp]

theorem attempt_trace (env : Env) (w : World) :
    attemptsAndSleeps (pgConnectWithRetry env w).events =
      [.attempt (pgConnectWithRetry env w).err] := by
  rcases attempt_cases env w with ⟨e, h⟩ | ⟨c, e, h, hp⟩ | ⟨c, h, hp⟩
  · simp [attempt_connect_error env w e h, attemptsAndSleeps]
  · simp [attempt_ping_error env w c e h hp, attemptsAndSleeps]
  · simp [attempt_ok env w c h hp, attemptsAndSleeps]

theorem attempt_counts (env : Env) (w : World) :
    attempts (pgConnectWithRetry env w).events = 1 ∧
      sleepCount (pgConnectWithRetry env w).events = 0 ∧
      sleptTotal (pgConnectWithRetry env w).events = 0 ∧
      failedAttempts (pgConnectWithRetry env w).events =
        (if (pgConnectWithRetry env w).err = none then 0 else 1) := by
  rcases attempt_cases env w with ⟨e, h⟩ | ⟨c, e, h, hp⟩ | ⟨c, h, hp⟩
  · simp [attempt_connect_error env w e h, attempts, sleepCount, sleptTotal, failedAttempts]
  · simp [attempt_ping_error env w c e h hp, attempts, sleepCount, sleptTotal, failedAttempts]
  · simp [attempt_ok env w c h hp, attempts, sleepCount, sleptTotal, failedAttempts]

theorem attempt_err (env : Env) (w : World) :
    (pgConnectWithRetry env w).err = none ↔
      attemptSucceeds env w.calls w.pm.Config = true := by
  rcases attempt_cases env w with ⟨e, h⟩ | ⟨c, e, h, hp⟩ | ⟨c, h, hp⟩
  · simp [attempt_connect_error env w e h, attemptSucceeds, h]
  · simp [attempt_ping_error env w c e h hp, attemptSucceeds, h, hp]
  · simp [attempt_ok env w c h hp, attemptSucceeds, h, hp]

theorem attempt_conn (env : Env) (w : World) :
    (pgConnectWithRetry env w).world.pm.conn =
      lastConnected w.pm.conn (pgConnectWithRetry env w).events := by
  rcases attempt_cases env w with ⟨e, h⟩ | ⟨c, e, h, hp⟩ | ⟨c, h, hp⟩
  · simp [attempt_connect_error env w e h, lastConnected]
  · simp [attempt_ping_error env w c e h hp, lastConnected]
  · simp [attempt_ok env w c h hp, lastConnected]

theorem Sleep_world (env : Env) (d : Int) (w : World) :
    (Sleep env d w).calls = w.calls ∧ (Sleep env d w).sleeps = w.sleeps + 1 ∧
      (Sleep env d w).now = w.now + d + env.lag w.sleeps ∧ (Sleep env d w).pm = w.pm := by
  simp [Sleep]

/-! ## Lemmas on the loop -/

/-- The loop condition is computed on unbounded integers.  This loses nothing: for a
timeout that is a `time.Duration` and a clock that has not gone backwards, the
saturation of `time.Since` does not change the outcome of the test. -/
theorem saturatedSince_lt_iff (elapsed timeout : Int) (h0 : 0 ≤ elapsed)
    (ht : timeout ≤ maxDuration) :
    saturatedSince elapsed < timeout ↔ elapsed < timeout := by
  unfold saturatedSince minDuration maxDuration at *
  omega

theorem loop_exit (env : Env) (timeout startTime : Int) (fuel : Nat) (w : World)
    (h : ¬ (w.now - startTime < timeout)) :
    reconnectLoop env timeout startTime (fuel + 1) w =
      some { err := some (timeoutError env timeout), world := w, events := [] } := by
  simp [reconnectLoop, h]

theorem loop_success (env : Env) (timeout startTime : Int) (fuel : Nat) (w : World)
    (h : w.now - startTime < timeout) (hs : (pgConnectWithRetry env w).err = none) :
    reconnectLoop env timeout startTime (fuel + 1) w =
      some { err := none, world := (pgConnectWithRetry env w).world,
             events := successfulIteration (pgConnectWithRetry env w) } := by
  simp [reconnectLoop, h, hs, successfulIteration]

theorem loop_fail (env : Env) (timeout startTime : Int) (fuel : Nat) (w : World) (err : Error)
    (h : w.now - startTime < timeout) (hf : (pgConnectWithRetry env w).err = some err) :
    reconnectLoop env timeout startTime (fuel + 1) w =
      (reconnectLoop env timeout startTime fuel
          (Sleep env (2 * Second) (pgConnectWithRetry env w).world)).map
        (fun r2 => { r2 with
          events := failedIteration (pgConnectWithRetry env w) err r2.events }) := by
  simp only [reconnectLoop, h, hf, failedIteration, if_true]
  cases reconnectLoop env timeout startTime fuel
    (Sleep env (2 * Second) (pgConnectWithRetry env w).world) <;> rfl

/-- Induction along a run of the loop that returns: a property of the state at the head
of the loop and of the result holds when it holds for the way out of the loop, for a
successful attempt, and is passed on from the rest of the run to a run that begins
with a failed attempt. -/
theorem loop_induct (env : Env) (timeout startTime : Int) (P : World → Result → Prop)
    (hexit : ∀ w : World, ¬ (w.now - startTime < timeout) →
      P w { err := some (timeoutError env timeout), world := w, events := [] })
    (hsucc : ∀ w : World, w.now - startTime < timeout →
      (pgConnectWithRetry env w).err = none →
      P w { err := none, world := (pgConnectWithRetry env w).world,
            events := successfulIteration (pgConnectWithRetry env w) })
    (hfail : ∀ (w : World) (err : Error) (r2 : Result), w.now - startTime < timeout →
      (pgConnectWithRetry env w).err = some err →
      P (Sleep env (2 * Second) (pgConnectWithRetry env w).world) r2 →
      P w { r2 with events := failedIteration (pgConnectWithRetry env w) err r2.events }) :
    ∀ (fuel : Nat) (w : World) (r : Result),
      reconnectLoop env timeout startTime fuel w = some r → P w r := by
  intro fuel
  induction fuel with
  | zero => intro w r h; simp [reconnectLoop] at h
  | succ n ih =>
    intro w r h
    by_cases hlt : w.now - startTime < timeout
    · rcases herr : (pgConnectWithRetry env w).err with _ | err
      · rw [loop_success env timeout startTime n w hlt herr] at h
        cases h
        exact hsucc w hlt herr
      · rw [loop_fail env timeout startTime n w err hlt herr] at h
        rcases h2 : reconnectLoop env timeout startTime n
            (Sleep env (2 * Second) (pgConnectWithRetry env w).world) with _ | r2
        · simp [h2] at h
        · simp only [h2, Option.map_some', Option.some.injEq] at h
          subst h
          exact hfail w err r2 hlt herr (ih _ r2 h2)
    · rw [loop_exit env timeout startTime n w hlt] at h
      cases h
      exact hexit w hlt

/-- More iterations allowed do not change the result of a run that returns. -/
theorem loop_fuel_mono (env : Env) (timeout startTime : Int) :
    ∀ (fuel : Nat) (w : World) (r : Result),
      reconnectLoop env timeout startTime fuel w = some r →
      ∀ k, reconnectLoop env timeout startTime (fuel + k) w = some r := by
  intro fuel
  induction fuel with
  | zero => intro w r h; simp [reconnectLoop] at h
  | succ n ih =>
    intro w r h k
    have hk : n + 1 + k = (n + k) + 1 := by omega
    rw [hk]
    by_cases hlt : w.now - startTime < timeout
    · rcases herr : (pgConnectWithRetry env w).err with _ | err
      · rw [loop_success env timeout startTime n w hlt herr] at h
        rw [loop_success env timeout startTime (n + k) w hlt herr, h]
      · rw [loop_fail env timeout startTime n w err hlt herr] at h
        rw [loop_fail env timeout startTime (n + k) w err hlt herr]
        rcases h2 : reconnectLoop env timeout startTime n
            (Sleep env (2 * Second) (pgConnectWithRetry env w).world) with _ | r2
        · simp [h2] at h
        · rw [ih _ r2 h2 k]
          rw [h2] at h
          exact h
    · rw [loop_exit env timeout startTime n w hlt] at h
      rw [loop_exit env timeout startTime (n + k) w hlt, h]

/-- A run that returns has one result, whatever the bound. -/
theorem loop_deterministic (env : Env) (timeout startTime : Int) (w : World)
    (f1 f2 : Nat) (r1 r2 : Result)
    (h1 : reconnectLoop env timeout startTime f1 w = some r1)
    (h2 : reconnectLoop env timeout startTime f2 w = some r2) : r1 = r2 := by
  have e1 := loop_fuel_mono env timeout startTime f1 w r1 h1 f2
  have e2 := loop_fuel_mono env timeout startTime f2 w r2 h2 f1
  rw [Nat.add_comm] at e2
  rw [e1] at e2
  exact Option.some.inj e2

theorem Second_pos : 0 < Second := by decide

/-- With a clock that does not go backwards and sleeps that last as long as asked, the
loop returns, from every state. -/
theorem loop_terminates (env : Env) (hc : ClockOK env) (timeout startTime : Int) :
    ∀ (n : Nat) (w : World), timeout - (w.now - startTime) ≤ n →
      ∃ fuel r, reconnectLoop env timeout startTime fuel w = some r := by
  intro n
  induction n using Nat.strong_induction_on with
  | _ n ih =>
    intro w hn
    by_cases hlt : w.now - startTime < timeout
    · rcases herr : (pgConnectWithRetry env w).err with _ | err
      · exact ⟨1, _, loop_success env timeout startTime 0 w hlt herr⟩
      · have hw := attempt_world env w
        have hs := Sleep_world env (2 * Second) (pgConnectWithRetry env w).world
        have h1 := hc.1 w.calls
        have h2 := hc.2.1 (pgConnectWithRetry env w).world.sleeps
        have hsec := Second_pos
        have hpos : 0 < n := by omega
        obtain ⟨fuel, r2, hr2⟩ := ih (n - 1) (by omega)
          (Sleep env (2 * Second) (pgConnectWithRetry env w).world) (by omega)
        refine ⟨fuel + 1,
          { r2 with events := failedIteration (pgConnectWithRetry env w) err r2.events }, ?_⟩
        rw [loop_fail env timeout startTime fuel w err hlt herr, hr2]
        rfl
    · exact ⟨1, _, loop_exit env timeout startTime 0 w hlt⟩

theorem reconnect_terminates (env : Env) (hc : ClockOK env) (timeout : Int) (w : World) :
    ∃ fuel r, PGReconnectWithTimeout env timeout fuel w = some r := by
  exact loop_terminates env hc timeout w.now
    (timeout - (w.now + env.startLag - w.now)).toNat { w with now := w.now + env.startLag }
    (Int.self_le_toNat _)

/-! ## Lemmas on the events of one iteration -/

theorem successfulIteration_trace (env : Env) (w : World)
    (hs : (pgConnectWithRetry env w).err = none) :
    attemptsAndSleeps (successfulIteration (pgConnectWithRetry env w)) = [.attempt none] := by
  have h := attempt_trace env w
  rw [hs] at h
  simp [successfulIteration, attemptsAndSleeps, attemptsAndSleeps_append, h]

theorem failedIteration_trace (env : Env) (w : World) (err : Error) (rest : List Event)
    (hf : (pgConnectWithRetry env w).err = some err) :
    attemptsAndSleeps (failedIteration (pgConnectWithRetry env w) err rest) =
      .attempt (some err) :: .sleep (2 * Second) :: attemptsAndSleeps rest := by
  have h := attempt_trace env w
  rw [hf] at h
  simp [failedIteration, attemptsAndSleeps, attemptsAndSleeps_append, h]

theorem successfulIteration_counts (env : Env) (w : World)
    (hs : (pgConnectWithRetry env w).err = none) :
    attempts (successfulIteration (pgConnectWithRetry env w)) = 1 ∧
      failedAttempts (successfulIteration (pgConnectWithRetry env w)) = 0 ∧
      sleepCount (successfulIteration (pgConnectWithRetry env w)) = 0 ∧
      sleptTotal (successfulIteration (pgConnectWithRetry env w)) = 0 := by
  obtain ⟨h1, h2, h3, h4⟩ := attempt_counts env w
  simp [successfulIteration, attempts, failedAttempts, sleepCount, sleptTotal,
    attempts_append, failedAttempts_append, sleepCount_append, sleptTotal_append,
    h1, h2, h3, h4, hs]

theorem failedIteration_counts (env : Env) (w : World) (err : Error) (rest : List Event)
    (hf : (pgConnectWithRetry env w).err = some err) :
    attempts (failedIteration (pgConnectWithRetry env w) err rest) = attempts rest + 1 ∧
      failedAttempts (failedIteration (pgConnectWithRetry env w) err rest) =
        failedAttempts rest + 1 ∧
      sleepCount (failedIteration (pgConnectWithRetry env w) err rest) = sleepCount rest + 1 ∧
      sleptTotal (failedIteration (pgConnectWithRetry env w) err rest) =
        sleptTotal rest + 2 * Second := by
  obtain ⟨h1, h2, h3, h4⟩ := attempt_counts env w
  simp only [hf] at h4
  simp [failedIteration, attempts, failedAttempts, sleepCount, sleptTotal,
    attempts_append, failedAttempts_append, sleepCount_append, sleptTotal_append,
    h1, h2, h3, h4]
  omega

theorem successfulIteration_conn (r : Result) (h0 : Option Conn) :
    lastConnected h0 (successfulIteration r) = lastConnected h0 r.events := by
  simp [successfulIteration, lastConnected, lastConnected_append]

theorem failedIteration_conn (r : Result) (err : Error) (rest : List Event)
    (h0 : Option Conn) :
    lastConnected h0 (failedIteration r err rest) =
      lastConnected (lastConnected h0 r.events) rest := by
  simp [failedIteration, lastConnected, lastConnected_append]

/-! ## `PGConnect` -/

/-- C3. When opening the connection fails with the driver error `e`, `PGConnect` returns
exactly that error and no handle, and the manager (stored connection and config) is
what it was before the call. -/
theorem PGConnect_failure_keeps_manager (env : Env) (w : World) (e : DriverError)
    (h : env.connect w.calls (connStr w.pm.Config) = .error e) :
    (PGConnect env w).ret = .error (.driver e) ∧ (PGConnect env w).world.pm = w.pm := by
  simp [PGConnect_error env w e h]

/-- C3 at a concrete input: the server is down and the manager holds the handle 7. -/
theorem PGConnect_failure_keeps_manager_witness :
    envDown.connect connectedWorld.calls (connStr connectedWorld.pm.Config) =
        .error ⟨"connection refused"⟩ ∧
      (PGConnect envDown connectedWorld).ret = .error (.driver ⟨"connection refused"⟩) ∧
      (PGConnect envDown connectedWorld).world.pm = connectedWorld.pm :=
  ⟨rfl, PGConnect_failure_keeps_manager envDown connectedWorld ⟨"connection refused"⟩ rfl⟩

/-- C4. When opening the connection succeeds with the handle `c`, `PGConnect` returns `c`
with no error; afterwards the stored connection is `c` and the config is unchanged.
This holds whether or not a connection was stored before. -/
theorem PGConnect_success_stores_handle (env : Env) (w : World) (c : Conn)
    (h : env.connect w.calls (connStr w.pm.Config) = .ok c) :
    (PGConnect env w).ret = .ok c ∧ (PGConnect env w).world.pm.conn = some c ∧
      (PGConnect env w).world.pm.Config = w.pm.Config := by
  simp [PGConnect_ok env w c h]

/-- C4 at a concrete input: the server is up and the manager holds the handle 7, which
is replaced by the handle 100. -/
theorem PGConnect_success_stores_handle_witness :
    envUp.connect connectedWorld.calls (connStr connectedWorld.pm.Config) = .ok 100 ∧
      (PGConnect envUp connectedWorld).ret = .ok 100 ∧
      (PGConnect envUp connectedWorld).world.pm.conn = some 100 ∧
      (PGConnect envUp connectedWorld).world.pm.Config = connectedWorld.pm.Config :=
  ⟨rfl, PGConnect_success_stores_handle envUp connectedWorld 100 rfl⟩

set_option maxRecDepth 100000 in
/-- C8, what the code does.  The descriptor is the seven fields in the order of the
claim, and the port is not printed verbatim after `port=`: it is printed under the verb
`%d`, which on a string gives `%!d(string=` followed by the port and `)`.  For the
sample config the descriptor is the literal below, and `port=5432` occurs nowhere in
it. -/
theorem connStr_port_under_d :
    (∀ cfg : PGClientConfig, connStr cfg =
      "hostname=" ++ cfg.Hostname ++ " port=%!d(string=" ++ cfg.Port ++ ") dbname=" ++
        cfg.Database ++ " user=" ++ cfg.Username ++ " password=" ++ cfg.Password ++
        " sslmode=" ++ cfg.Sslmode ++ " applicationame=" ++ cfg.ApplicationName) ∧
      connStr sampleConfig =
        "hostname=db.local port=%!d(string=5432) dbname=bench user=joe password=pw sslmode=disable applicationame=simload" ∧
      ¬ ("port=5432".toList <:+: (connStr sampleConfig).toList) :=
  ⟨connStr_eq, by decide, by decide⟩

/-- The descriptor is the one handed to `pgx.Connect`. -/
theorem PGConnect_passes_connStr (env : Env) (w : World) :
    (PGConnect env w).events =
      [.connect (connStr w.pm.Config) (env.connect w.calls (connStr w.pm.Config))] := by
  rcases hc : env.connect w.calls (connStr w.pm.Config) with e | c
  · rw [PGConnect_error env w e hc]
  · rw [PGConnect_ok env w c hc]

/-! ## `PGReconnectWithTimeout`: what is returned -/

/-- C5. Whatever the backend does, a call of `PGReconnectWithTimeout` that returns,
returns nil or the error of `fmt.Errorf` whose message is `failed to reconnect within `
followed by the rendering of the timeout; never an error of the driver.  With a clock
that does not go backwards the call does return. -/
theorem reconnect_returns_nil_or_timeout (env : Env) (timeout : Int) (w : World) :
    (∀ fuel r, PGReconnectWithTimeout env timeout fuel w = some r →
      r.err = none ∨
        r.err = some (.errorf ("failed to reconnect within " ++ env.durationString timeout))) ∧
    (ClockOK env → ∃ fuel r, PGReconnectWithTimeout env timeout fuel w = some r ∧
      (r.err = none ∨
        r.err = some (.errorf ("failed to reconnect within " ++ env.durationString timeout)))) := by
  have key : ∀ fuel r, PGReconnectWithTimeout env timeout fuel w = some r →
      r.err = none ∨
        r.err = some (.errorf ("failed to reconnect within " ++ env.durationString timeout)) := by
    intro fuel r h
    refine loop_induct env timeout w.now
      (fun _ r => r.err = none ∨
        r.err = some (.errorf ("failed to reconnect within " ++ env.durationString timeout)))
      ?_ ?_ ?_ fuel { w with now := w.now + env.startLag } r h
    · intro w1 _
      exact Or.inr (by rw [timeoutError_eq])
    · intro w1 _ _
      exact Or.inl rfl
    · intro w1 err r2 _ _ ih
      exact ih
  refine ⟨key, fun hc => ?_⟩
  obtain ⟨fuel, r, hr⟩ := reconnect_terminates env hc timeout w
  exact ⟨fuel, r, hr, key fuel r hr⟩

/-- C5 at a concrete input: no server and a timeout of one second; the call returns the
timeout error that names `1s`. -/
theorem reconnect_returns_nil_or_timeout_witness :
    ∃ r, PGReconnectWithTimeout envDown Second 2 sampleWorld = some r ∧
      r.err = some (.errorf "failed to reconnect within 1s") ∧
      (r.err = none ∨
        r.err = some (.errorf ("failed to reconnect within " ++ envDown.durationString Second))) := by
  obtain ⟨r, hr⟩ := Option.isSome_iff_exists.mp
    (show (PGReconnectWithTimeout envDown Second 2 sampleWorld).isSome = true by decide)
  have he : (PGReconnectWithTimeout envDown Second 2 sampleWorld).map (fun r => r.err) =
      some (some (.errorf "failed to reconnect within 1s")) := by decide
  rw [hr] at he
  exact ⟨r, hr, Option.some.inj he,
    (reconnect_returns_nil_or_timeout envDown Second sampleWorld).1 2 r hr⟩

/-! ## `PGReconnectWithTimeout`: the attempts -/

/-- C1 as stated fails: with a timeout of zero the call returns the timeout error and
has made no attempt, though the server is up. -/
theorem reconnect_zero_timeout_no_attempt :
    (PGReconnectWithTimeout envUp 0 1 sampleWorld).map (fun r => (r.err, attempts r.events)) =
      some (some (.errorf "failed to reconnect within 0s"), 0) := by
  decide

/-- C1, amended. For every manager state, every backend and every timeout, a call of
`PGReconnectWithTimeout` that returns has made at least one attempt (one call of
`pgConnectWithRetry`) when the timeout is greater than the time that passes between
the reading of the start time and the first test of the loop condition; when the
timeout is not greater than that time, it has made no attempt and returns the timeout
error.  With a clock that does not go backwards the call does return, and a timeout
of zero or below is never greater than that time. -/
theorem reconnect_attempts_at_least_once (env : Env) (timeout : Int) (w : World) :
    (∀ fuel r, PGReconnectWithTimeout env timeout fuel w = some r →
      (env.startLag < timeout → 1 ≤ attempts r.events) ∧
      (¬ env.startLag < timeout →
        attempts r.events = 0 ∧ r.err = some (timeoutError env timeout))) ∧
    (ClockOK env → (∃ fuel r, PGReconnectWithTimeout env timeout fuel w = some r) ∧
      (timeout ≤ 0 → ¬ env.startLag < timeout)) := by
  refine ⟨?_, fun hc => ⟨reconnect_terminates env hc timeout w, fun ht => ?_⟩⟩
  rotate_left
  · have := hc.2.2
    omega
  intro fuel r h
  have hstart : ∀ w1 : World, w1 = { w with now := w.now + env.startLag } →
      (w1.now - w.now < timeout ↔ env.startLag < timeout) := by
    intro w1 hw1
    subst hw1
    show w.now + env.startLag - w.now < timeout ↔ env.startLag < timeout
    constructor <;> intro hh <;> omega
  change reconnectLoop env timeout w.now fuel { w with now := w.now + env.startLag } =
    some r at h
  generalize hw1 : ({ w with now := w.now + env.startLag } : World) = w1 at h
  have hiff := hstart w1 hw1.symm
  cases fuel with
  | zero => simp [reconnectLoop] at h
  | succ n =>
    by_cases hlt : w1.now - w.now < timeout
    · refine ⟨fun _ => ?_, fun hn => absurd (hiff.1 hlt) hn⟩
      rcases herr : (pgConnectWithRetry env w1).err with _ | err
      · rw [loop_success env timeout w.now n w1 hlt herr] at h
        cases h
        simp [(successfulIteration_counts env w1 herr).1]
      · rw [loop_fail env timeout w.now n w1 err hlt herr] at h
        rcases h2 : reconnectLoop env timeout w.now n
            (Sleep env (2 * Second) (pgConnectWithRetry env w1).world) with _ | r2
        · simp [h2] at h
        · simp only [h2, Option.map_some', Option.some.injEq] at h
          subst h
          simp [(failedIteration_counts env w1 err r2.events herr).1]
    · refine ⟨fun hp => absurd (hiff.2 hp) hlt, fun _ => ?_⟩
      rw [loop_exit env timeout w.now n w1 hlt] at h
      cases h
      exact ⟨rfl, rfl⟩

/-- C1, amended, at a concrete input: a healthy server and a clock that moves by 100
nanoseconds before the first test.  With a timeout of one second the call returns
success after one attempt; with a timeout of 10 nanoseconds it returns the timeout
error after no attempt. -/
theorem reconnect_attempts_at_least_once_witness :
    (envUpLate.startLag < Second ∧
      ∃ r, PGReconnectWithTimeout envUpLate Second 1 sampleWorld = some r ∧
        r.err = none ∧ 1 ≤ attempts r.events) ∧
    (¬ envUpLate.startLag < 10 ∧
      ∃ r, PGReconnectWithTimeout envUpLate 10 1 sampleWorld = some r ∧
        attempts r.events = 0 ∧ r.err = some (timeoutError envUpLate 10)) := by
  obtain ⟨r1, hr1⟩ := Option.isSome_iff_exists.mp
    (show (PGReconnectWithTimeout envUpLate Second 1 sampleWorld).isSome = true by decide)
  obtain ⟨r2, hr2⟩ := Option.isSome_iff_exists.mp
    (show (PGReconnectWithTimeout envUpLate 10 1 sampleWorld).isSome = true by decide)
  have he : (PGReconnectWithTimeout envUpLate Second 1 sampleWorld).map (fun r => r.err) =
      some none := by decide
  rw [hr1] at he
  have hlt : envUpLate.startLag < Second := by decide
  have hge : ¬ envUpLate.startLag < 10 := by decide
  exact ⟨⟨hlt, r1, hr1, Option.some.inj he,
      ((reconnect_attempts_at_least_once envUpLate Second sampleWorld).1 1 r1 hr1).1 hlt⟩,
    ⟨hge, r2, hr2,
      ((reconnect_attempts_at_least_once envUpLate 10 sampleWorld).1 1 r2 hr2).2 hge⟩⟩

/-! ## `PGReconnectWithTimeout`: the sleeps -/

/-- C6. In every run of `PGReconnectWithTimeout` that returns, the attempts and sleeps
follow `SleepRule`: each failed attempt, failed at connect or at ping, is followed at
once by one `time.Sleep` of exactly two seconds, and a successful attempt is followed
by no sleep.  So the number of sleeps is the number of failed attempts `k`, and the
durations asked add up to `2k` seconds. -/
theorem reconnect_sleeps_two_seconds_per_failure (env : Env) (timeout : Int) (fuel : Nat)
    (w : World) (r : Result) (h : PGReconnectWithTimeout env timeout fuel w = some r) :
    SleepRule (attemptsAndSleeps r.events) ∧
      sleepCount r.events = failedAttempts r.events ∧
      sleptTotal r.events = 2 * Second * (failedAttempts r.events : Int) := by
  refine loop_induct env timeout w.now
    (fun _ r => SleepRule (attemptsAndSleeps r.events) ∧
      sleepCount r.events = failedAttempts r.events ∧
      sleptTotal r.events = 2 * Second * (failedAttempts r.events : Int))
    ?_ ?_ ?_ fuel { w with now := w.now + env.startLag } r h
  · intro w1 _
    simp [attemptsAndSleeps, SleepRule, sleepCount, failedAttempts, sleptTotal]
  · intro w1 _ hs
    obtain ⟨_, h2, h3, h4⟩ := successfulIteration_counts env w1 hs
    simp [successfulIteration_trace env w1 hs, SleepRule, h2, h3, h4]
  · intro w1 err r2 _ hf ih
    obtain ⟨_, h2, h3, h4⟩ := failedIteration_counts env w1 err r2.events hf
    obtain ⟨i1, i2, i3⟩ := ih
    refine ⟨?_, ?_, ?_⟩
    · simp [failedIteration_trace env w1 err r2.events hf, SleepRule, i1]
    · simp [h2, h3, i2]
    · simp only [h2, h4, i3]
      push_cast
      ring

/-- C6 at a concrete input: the flaky server, whose first attempt fails at connect and
whose second fails at ping; the run has two failed attempts, two sleeps, four seconds
asked. -/
theorem reconnect_sleeps_two_seconds_per_failure_witness :
    ∃ r, PGReconnectWithTimeout envFlaky (10 * Second) 3 sampleWorld = some r ∧
      failedAttempts r.events = 2 ∧
      SleepRule (attemptsAndSleeps r.events) ∧
      sleepCount r.events = failedAttempts r.events ∧
      sleptTotal r.events = 2 * Second * (failedAttempts r.events : Int) := by
  obtain ⟨r, hr⟩ := Option.isSome_iff_exists.mp
    (show (PGReconnectWithTimeout envFlaky (10 * Second) 3 sampleWorld).isSome = true by decide)
  have he : (PGReconnectWithTimeout envFlaky (10 * Second) 3 sampleWorld).map
      (fun r => failedAttempts r.events) = some 2 := by decide
  rw [hr] at he
  exact ⟨r, hr, Option.some.inj he,
    reconnect_sleeps_two_seconds_per_failure envFlaky (10 * Second) 3 sampleWorld r hr⟩

/-! ## The stored connection after failed attempts -/

/-- C9. When the connect of an attempt succeeds with the handle `c` and the ping on `c`
fails with `e`, `pgConnectWithRetry` returns `e` and the stored connection is `c`,
the new handle that did not answer the ping, whatever was stored before.  So after a
`PGReconnectWithTimeout` that returns the timeout error the stored connection is the
handle of the last connect that succeeded, and the handle stored at entry when no
connect succeeded. -/
theorem ping_failure_keeps_new_handle (env : Env) (w : World) :
    (∀ c e, env.connect w.calls (connStr w.pm.Config) = .ok c →
      env.ping w.calls c = some e →
      (pgConnectWithRetry env w).err = some (.driver e) ∧
        (pgConnectWithRetry env w).world.pm.conn = some c) ∧
    (∀ timeout fuel r, PGReconnectWithTimeout env timeout fuel w = some r →
      r.err = some (timeoutError env timeout) →
      r.world.pm.conn = lastConnected w.pm.conn r.events) := by
  refine ⟨?_, ?_⟩
  · intro c e hc hp
    simp [attempt_ping_error env w c e hc hp]
  · intro timeout fuel r h _
    refine loop_induct env timeout w.now
      (fun w r => r.world.pm.conn = lastConnected w.pm.conn r.events) ?_ ?_ ?_ fuel { w with now := w.now + env.startLag } r h
    · intro w1 _
      simp [lastConnected]
    · intro w1 _ _
      simp [successfulIteration_conn, attempt_conn env w1]
    · intro w1 err r2 _ _ ih
      simp only [failedIteration_conn]
      rw [ih, (Sleep_world env (2 * Second) (pgConnectWithRetry env w1).world).2.2.2,
        attempt_conn env w1]

/-- C9 at a concrete input: a server that accepts connections and answers no ping, a
manager that holds the handle 7, a timeout of three seconds.  One attempt leaves the
handle 100 stored; the whole call makes two attempts, times out and leaves the handle
101 of the second connect. -/
theorem ping_failure_keeps_new_handle_witness :
    ((pgConnectWithRetry envNoPing connectedWorld).err = some (.driver ⟨"ping timeout"⟩) ∧
      (pgConnectWithRetry envNoPing connectedWorld).world.pm.conn = some 100) ∧
    ∃ r, PGReconnectWithTimeout envNoPing (3 * Second) 3 connectedWorld = some r ∧
      r.world.pm.conn = some 101 ∧
      r.world.pm.conn = lastConnected connectedWorld.pm.conn r.events := by
  obtain ⟨r, hr⟩ := Option.isSome_iff_exists.mp
    (show (PGReconnectWithTimeout envNoPing (3 * Second) 3 connectedWorld).isSome = true
      by decide)
  have he : (PGReconnectWithTimeout envNoPing (3 * Second) 3 connectedWorld).map
      (fun r => (r.err, r.world.pm.conn)) =
      some (some (timeoutError envNoPing (3 * Second)), some 101) := by decide
  rw [hr] at he
  have he2 := Option.some.inj he
  exact ⟨(ping_failure_keeps_new_handle envNoPing connectedWorld).1 100 ⟨"ping timeout"⟩ rfl rfl,
    r, hr, congrArg Prod.snd he2,
    (ping_failure_keeps_new_handle envNoPing connectedWorld).2 (3 * Second) 3 r hr
      (congrArg Prod.fst he2)⟩

/-! ## `PGReconnectWithTimeout` over the model clocks -/

/-- A backend that fails `k` attempts and succeeds at the next one, over the clock of
fixed cost `c`: from a state at the head of the loop, the run returns within `k + 1`
iterations, with success when the last of these attempts starts before the timeout
has passed and with the timeout error otherwise. -/
theorem loop_fixed_clock (env : Env) (c timeout startTime : Int) (hc : 0 ≤ c)
    (hcost : ∀ n, env.cost n = c) (hlag : ∀ k, env.lag k = 0) :
    ∀ (k : Nat) (w : World),
      (∀ i, i < k → attemptSucceeds env (w.calls + i) w.pm.Config = false) →
      attemptSucceeds env (w.calls + k) w.pm.Config = true →
      ∃ r, reconnectLoop env timeout startTime (k + 1) w = some r ∧
        r.err = if (w.now - startTime) + (k : Int) * (c + 2 * Second) < timeout then none
          else some (timeoutError env timeout) := by
  intro k
  induction k with
  | zero =>
    intro w _ hok
    by_cases hlt : w.now - startTime < timeout
    · have herr : (pgConnectWithRetry env w).err = none := (attempt_err env w).2 (by simpa using hok)
      exact ⟨_, loop_success env timeout startTime 0 w hlt herr, by simp [hlt]⟩
    · exact ⟨_, loop_exit env timeout startTime 0 w hlt, by simp [hlt]⟩
  | succ k ih =>
    intro w hfail hok
    have hsec := Second_pos
    by_cases hlt : w.now - startTime < timeout
    · have h0 : attemptSucceeds env w.calls w.pm.Config = false := by
        simpa using hfail 0 (Nat.succ_pos k)
      rcases herr : (pgConnectWithRetry env w).err with _ | err
      · rw [(attempt_err env w).1 herr] at h0
        cases h0
      · obtain ⟨hw1, hw2, hw3, hw4⟩ := attempt_world env w
        obtain ⟨hs1, hs2, hs3, hs4⟩ := Sleep_world env (2 * Second) (pgConnectWithRetry env w).world
        have hcfg : (Sleep env (2 * Second) (pgConnectWithRetry env w).world).pm.Config =
            w.pm.Config := by rw [hs4, hw4]
        have hcalls : (Sleep env (2 * Second) (pgConnectWithRetry env w).world).calls =
            w.calls + 1 := by rw [hs1, hw1]
        obtain ⟨r2, hr2, he2⟩ := ih (Sleep env (2 * Second) (pgConnectWithRetry env w).world)
          (by
            intro i hi
            rw [hcfg, hcalls]
            have := hfail (i + 1) (by omega)
            rwa [show w.calls + (i + 1) = w.calls + 1 + i by omega] at this)
          (by
            rw [hcfg, hcalls]
            rwa [show w.calls + (k + 1) = w.calls + 1 + k by omega] at hok)
        refine ⟨{ r2 with events := failedIteration (pgConnectWithRetry env w) err r2.events },
          ?_, ?_⟩
        · rw [loop_fail env timeout startTime (k + 1) w err hlt herr, hr2]
          rfl
        · have hnow : (Sleep env (2 * Second) (pgConnectWithRetry env w).world).now - startTime +
              (k : Int) * (c + 2 * Second) =
              w.now - startTime + ((k + 1 : Nat) : Int) * (c + 2 * Second) := by
            rw [hs3, hw3, hcost w.calls, hlag]
            push_cast
            ring
          show r2.err = _
          rw [he2, hnow]
    · refine ⟨_, loop_exit env timeout startTime (k + 1) w hlt, ?_⟩
      have hnn : 0 ≤ ((k + 1 : Nat) : Int) * (c + 2 * Second) :=
        mul_nonneg (Int.natCast_nonneg _) (by omega)
      have : ¬ (w.now - startTime + ((k + 1 : Nat) : Int) * (c + 2 * Second) < timeout) := by
        omega
      exact (if_neg this).symm

/-- C2 as stated fails: a server that is up (the first attempt succeeds, `N = 1`),
attempts that take no time (`c = 0`) and a timeout of one second.  `N * (c + 2s)` is two
seconds, which is not below the timeout, and the call returns success, not the timeout
error. -/
theorem reconnect_success_though_product_exceeds_timeout :
    FixedClock envUp 0 ∧
      attemptSucceeds envUp (sampleWorld.calls + 0) sampleWorld.pm.Config = true ∧
      ¬ ((1 : Int) * (0 + 2 * Second) < Second) ∧
      (PGReconnectWithTimeout envUp Second 1 sampleWorld).map (fun r => r.err) = some none :=
  ⟨⟨fun _ => rfl, fun _ => rfl, rfl⟩, by decide, by decide, by decide⟩

/-- C2, amended. Over the model clock in which every attempt costs the fixed time
`c ≥ 0` and every failed attempt is followed by a sleep of exactly two seconds, with a
backend that fails the attempts `1 .. N-1` and succeeds at attempt `N ≥ 1`:
`PGReconnectWithTimeout` returns, with success when `(N - 1) * (c + 2s) < timeout` (the
`N`-th attempt starts before the timeout has passed) and with the timeout error
otherwise. -/
theorem reconnect_succeeds_iff_last_attempt_starts_in_time (env : Env) (c timeout : Int)
    (w : World) (N : Nat) (hN : 1 ≤ N) (hc : 0 ≤ c) (hclock : FixedClock env c)
    (hfail : ∀ i, i + 1 < N → attemptSucceeds env (w.calls + i) w.pm.Config = false)
    (hok : attemptSucceeds env (w.calls + (N - 1)) w.pm.Config = true) :
    ∃ fuel r, PGReconnectWithTimeout env timeout fuel w = some r ∧
      r.err = if ((N : Int) - 1) * (c + 2 * Second) < timeout then none
        else some (timeoutError env timeout) := by
  obtain ⟨r, hr, he⟩ := loop_fixed_clock env c timeout w.now hc hclock.1 hclock.2.1 (N - 1)
    { w with now := w.now + env.startLag } (fun i hi => hfail i (by omega)) hok
  refine ⟨N - 1 + 1, r, hr, ?_⟩
  rw [he]
  have hcast : ((N - 1 : Nat) : Int) = (N : Int) - 1 := by omega
  have hstart : w.now + env.startLag - w.now = 0 := by rw [hclock.2.2]; omega
  simp only [hcast, hstart, zero_add]

/-- C2, amended, at a concrete input: the flaky server (attempts of one second, the
third succeeds) and a timeout of ten seconds; `(3 - 1) * (1s + 2s)` is six seconds and
the call returns success. -/
theorem reconnect_succeeds_iff_last_attempt_starts_in_time_witness :
    (1 ≤ 3 ∧ (0 : Int) ≤ Second ∧ FixedClock envFlaky Second) ∧
    (((3 : Nat) : Int) - 1) * (Second + 2 * Second) < 10 * Second ∧
    ∃ fuel r, PGReconnectWithTimeout envFlaky (10 * Second) fuel sampleWorld = some r ∧
      r.err = if (((3 : Nat) : Int) - 1) * (Second + 2 * Second) < 10 * Second then none
        else some (timeoutError envFlaky (10 * Second)) :=
  ⟨⟨by decide, by decide, fun _ => rfl, fun _ => rfl, rfl⟩, by decide,
    reconnect_succeeds_iff_last_attempt_starts_in_time envFlaky Second (10 * Second)
      sampleWorld 3 (by decide) (by decide) ⟨fun _ => rfl, fun _ => rfl, rfl⟩
      (fun i hi => by
        have hi2 : i = 0 ∨ i = 1 := by omega
        rcases hi2 with rfl | rfl <;> decide)
      (by decide)⟩

/-- C7 as stated fails: no server, attempts that take no time, a timeout of one second.
The only attempt starts at once and fails, the sleep takes two seconds, and the call
returns two seconds after it was entered. -/
theorem reconnect_overruns_timeout :
    FixedClock envDown 0 ∧ (0 : Int) ≤ Second ∧
      (PGReconnectWithTimeout envDown Second 2 sampleWorld).map
        (fun r => r.world.now - sampleWorld.now) = some (2 * Second) ∧
      ¬ (2 * Second ≤ Second) :=
  ⟨⟨fun _ => rfl, fun _ => rfl, rfl⟩, by decide, by decide, by decide⟩

/-- C7, amended. Over the model clock in which attempts cost a time between zero and
`cmax`, every sleep lasts exactly as long as asked and the clock moves at no other
time, for every timeout `≥ 0` and
every backend, `PGReconnectWithTimeout` returns, and the time that has passed between
entry and return is below `timeout + cmax + 2s`: the last attempt starts before the
timeout has passed, and the attempt and the sleep after it are not cut short. -/
theorem reconnect_elapsed_below_timeout_plus_one_round (env : Env) (timeout cmax : Int)
    (w : World) (ht : 0 ≤ timeout) (hcost : ∀ n, 0 ≤ env.cost n ∧ env.cost n ≤ cmax)
    (hlag : ∀ k, env.lag k = 0) (hstart : env.startLag = 0) :
    (∃ fuel r, PGReconnectWithTimeout env timeout fuel w = some r) ∧
    (∀ fuel r, PGReconnectWithTimeout env timeout fuel w = some r →
      r.world.now - w.now < timeout + cmax + 2 * Second) := by
  have hsec := Second_pos
  have hclock : ClockOK env :=
    ⟨fun n => (hcost n).1, fun k => by rw [hlag k], by rw [hstart]⟩
  refine ⟨reconnect_terminates env hclock timeout w, ?_⟩
  intro fuel r h
  have key : r.world.now = w.now + env.startLag ∨
      r.world.now - w.now < timeout + cmax + 2 * Second := by
    refine loop_induct env timeout w.now
      (fun w1 r => r.world.now = w1.now ∨ r.world.now - w.now < timeout + cmax + 2 * Second)
      ?_ ?_ ?_ fuel { w with now := w.now + env.startLag } r h
    · intro w1 _
      exact Or.inl rfl
    · intro w1 hlt _
      have hw := (attempt_world env w1).2.2.1
      have hcst := hcost w1.calls
      right
      show (pgConnectWithRetry env w1).world.now - w.now < timeout + cmax + 2 * Second
      omega
    · intro w1 err r2 hlt _ ih
      have hw := (attempt_world env w1).2.2.1
      have hs := (Sleep_world env (2 * Second) (pgConnectWithRetry env w1).world).2.2.1
      have hcst := hcost w1.calls
      have hl := hlag (pgConnectWithRetry env w1).world.sleeps
      right
      show r2.world.now - w.now < timeout + cmax + 2 * Second
      rcases ih with ih | ih
      · omega
      · exact ih
  have hcst := hcost 0
  rcases key with key | key
  · omega
  · exact key

/-- C7, amended, at a concrete input: no server, a timeout of one second; the call
returns after two seconds, below the three seconds of the bound. -/
theorem reconnect_elapsed_below_timeout_plus_one_round_witness :
    ((0 : Int) ≤ Second ∧ (∀ n, 0 ≤ envDown.cost n ∧ envDown.cost n ≤ 0) ∧
      (∀ k, envDown.lag k = 0) ∧ envDown.startLag = 0) ∧
    ∃ r, PGReconnectWithTimeout envDown Second 2 sampleWorld = some r ∧
      r.world.now - sampleWorld.now = 2 * Second ∧
      r.world.now - sampleWorld.now < Second + 0 + 2 * Second := by
  have hyp : (0 : Int) ≤ Second ∧ (∀ n, 0 ≤ envDown.cost n ∧ envDown.cost n ≤ 0) ∧
      (∀ k, envDown.lag k = 0) ∧ envDown.startLag = 0 :=
    ⟨by decide, fun _ => ⟨le_refl _, le_refl _⟩, fun _ => rfl, rfl⟩
  obtain ⟨r, hr⟩ := Option.isSome_iff_exists.mp
    (show (PGReconnectWithTimeout envDown Second 2 sampleWorld).isSome = true by decide)
  have he : (PGReconnectWithTimeout envDown Second 2 sampleWorld).map
      (fun r => r.world.now - sampleWorld.now) = some (2 * Second) := by decide
  rw [hr] at he
  exact ⟨hyp, r, hr, Option.some.inj he,
    (reconnect_elapsed_below_timeout_plus_one_round envDown Second 0 sampleWorld
      hyp.1 hyp.2.1 hyp.2.2.1 hyp.2.2.2).2 2 r hr⟩

/-! ## Termination and the number of attempts -/

/-- In a run of the loop over a clock that does not go backwards, an attempt that is
not the first one starts at least two seconds after the attempt before it: the
`k`-th attempt counted from the head of the loop starts at least `2 (k - 1)` seconds
after the head was reached, and before the timeout has passed. -/
theorem loop_attempts_spaced (env : Env) (hc : ClockOK env) (timeout startTime : Int)
    (fuel : Nat) (w : World) (r : Result)
    (h : reconnectLoop env timeout startTime fuel w = some r) :
    (¬ (w.now - startTime < timeout) → attempts r.events = 0) ∧
      (attempts r.events = 0 ∨
        (w.now - startTime) + 2 * Second * ((attempts r.events : Int) - 1) < timeout) := by
  have hsec := Second_pos
  refine loop_induct env timeout startTime
    (fun w r => (¬ (w.now - startTime < timeout) → attempts r.events = 0) ∧
      (attempts r.events = 0 ∨
        (w.now - startTime) + 2 * Second * ((attempts r.events : Int) - 1) < timeout))
    ?_ ?_ ?_ fuel w r h
  · intro w1 _
    simp [attempts]
  · intro w1 hlt hs
    have ha := (successfulIteration_counts env w1 hs).1
    refine ⟨fun hn => absurd hlt hn, Or.inr ?_⟩
    simp only [ha]
    simpa using hlt
  · intro w1 err r2 hlt hf ih
    have ha := (failedIteration_counts env w1 err r2.events hf).1
    have hw := (attempt_world env w1).2.2.1
    have hs := (Sleep_world env (2 * Second) (pgConnectWithRetry env w1).world).2.2.1
    have h1 := hc.1 w1.calls
    have h2 := hc.2.1 (pgConnectWithRetry env w1).world.sleeps
    refine ⟨fun hn => absurd hlt hn, Or.inr ?_⟩
    simp only [ha]
    push_cast
    rcases ih.2 with i0 | i1
    · rw [i0]
      simpa using hlt
    · have e : 2 * Second * ((attempts r2.events : Int) + 1 - 1) =
          2 * Second + 2 * Second * ((attempts r2.events : Int) - 1) := by ring
      rw [e]
      omega

/-- C10. Over a clock that never goes backwards and whose sleeps advance it by at least
the two seconds asked, for every backend, also one that fails for ever,
`PGReconnectWithTimeout` returns; for a timeout above zero the number of attempts is
at most the timeout divided by two seconds, rounded up; for a timeout of zero or below
no attempt is made. -/
theorem reconnect_terminates_with_bounded_attempts (env : Env) (timeout : Int) (w : World)
    (hc : ClockOK env) :
    (∃ fuel r, PGReconnectWithTimeout env timeout fuel w = some r) ∧
    (∀ fuel r, PGReconnectWithTimeout env timeout fuel w = some r →
      (0 < timeout →
        (attempts r.events : Int) ≤ ⌈(timeout : ℚ) / ((2 * Second : Int) : ℚ)⌉) ∧
      (timeout ≤ 0 → attempts r.events = 0)) := by
  refine ⟨reconnect_terminates env hc timeout w, ?_⟩
  intro fuel r h
  obtain ⟨hzero, hbound⟩ := loop_attempts_spaced env hc timeout w.now fuel
    { w with now := w.now + env.startLag } r h
  have hlag0 := hc.2.2
  have hnow : ({ w with now := w.now + env.startLag } : World).now - w.now = env.startLag := by
    show w.now + env.startLag - w.now = env.startLag
    omega
  rw [hnow] at hzero hbound
  have hsec := Second_pos
  have h2s : (0 : ℚ) < ((2 * Second : Int) : ℚ) := by
    have : (0 : Int) < 2 * Second := by omega
    exact_mod_cast this
  refine ⟨fun ht => ?_, fun ht => hzero (by omega)⟩
  rcases hbound with h0 | hlt
  · rw [h0]
    have : (0 : ℚ) ≤ (timeout : ℚ) / ((2 * Second : Int) : ℚ) :=
      div_nonneg (by exact_mod_cast ht.le) h2s.le
    simpa using Int.ceil_nonneg this
  · have hlt2 : 2 * Second * ((attempts r.events : Int) - 1) < timeout := by omega
    have hq : (((attempts r.events : Int) - 1 : Int) : ℚ) <
        (timeout : ℚ) / ((2 * Second : Int) : ℚ) := by
      rw [lt_div_iff₀ h2s]
      have : ((attempts r.events : Int) - 1) * (2 * Second) < timeout := by
        rw [mul_comm]
        exact hlt2
      exact_mod_cast this
    have := Int.lt_ceil.2 hq
    omega

/-- C10 at a concrete input: no server and a timeout of five seconds; the call returns
after three attempts, and five over two rounded up is three. -/
theorem reconnect_terminates_with_bounded_attempts_witness :
    ClockOK envDown ∧
    ∃ r, PGReconnectWithTimeout envDown (5 * Second) 4 sampleWorld = some r ∧
      attempts r.events = 3 ∧
      ((0 : Int) < 5 * Second →
        (attempts r.events : Int) ≤ ⌈((5 * Second : Int) : ℚ) / ((2 * Second : Int) : ℚ)⌉) ∧
      (5 * Second ≤ 0 → attempts r.events = 0) := by
  have hck : ClockOK envDown := ⟨fun _ => le_refl _, fun _ => le_refl _, le_refl _⟩
  obtain ⟨r, hr⟩ := Option.isSome_iff_exists.mp
    (show (PGReconnectWithTimeout envDown (5 * Second) 4 sampleWorld).isSome = true by decide)
  have he : (PGReconnectWithTimeout envDown (5 * Second) 4 sampleWorld).map
      (fun r => attempts r.events) = some 3 := by decide
  rw [hr] at he
  exact ⟨hck, r, hr, Option.some.inj he,
    (reconnect_terminates_with_bounded_attempts envDown (5 * Second) sampleWorld hck).2 4 r hr⟩

end pgconnector
